import Mathlib

/-!
Shallow embedding of the Geo-SInC repository's numerical core.

The repository consists of two Jupyter notebooks:

* `4.4_Decomposition_of_velocities_from_multiple_viewing_geometries/
  simple_los_decomposition_berkeley_landslides.ipynb` — computes unit
  line-of-sight (LOS) vectors from flight azimuth and incidence angle
  (right-looking radar convention) and decomposes pairs of InSAR
  range-change velocity observations into east and vertical ground
  velocity components via the least-squares normal equations
  `m = (PᵀP)⁻¹ Pᵀ r`.

* `3.1_Preparing_InSAR_data_for_modeling/process_quadtree_output.ipynb` —
  reformats kite quadtree output, computing LOS vector components in the
  kite up-looking convention.

The notebook arithmetic is numpy double precision; it is embedded here
over `ℝ` (for the trigonometric LOS formulas) and over an arbitrary
`Field` — instantiated at `ℚ` for concrete evaluation — for the
exact-rational linear algebra of the decomposition step.
-/

namespace GeoSInC

open Real

/-- LOS vector from flight azimuth `phi` and incidence `theta` (radians),
right-looking radar convention.  Embeds the notebook line
`p_asc=np.array([np.cos(asc_azi)*np.sin(asc_inc),-np.sin(asc_azi)*np.sin(asc_inc),-np.cos(asc_inc)])`
(and the identical `p_dsc` line), promoted to a function of the two angles
as the spec's `compute_los_vector`.  Components: (east, north, vertical). -/
noncomputable def compute_los_vector (phi theta : ℝ) : ℝ × ℝ × ℝ :=
  (Real.cos phi * Real.sin theta, -Real.sin phi * Real.sin theta, -Real.cos theta)

/-- Degrees to radians, embedding `np.radians`. -/
noncomputable def radians (d : ℝ) : ℝ := d * π / 180

/-- LOS vector components in the kite up-looking convention, embedding the
quadtree notebook lines
`losx=np.cos(qt.leaf_thetas)*-np.cos(qt.leaf_phis)`,
`losy=np.cos(qt.leaf_thetas)*-np.sin(qt.leaf_phis)`,
`losz=-np.sin(qt.leaf_thetas)` for one quadtree leaf. -/
noncomputable def kite_los_vector (theta phi : ℝ) : ℝ × ℝ × ℝ :=
  (Real.cos theta * -Real.cos phi, Real.cos theta * -Real.sin phi, -Real.sin theta)

/-- A 2×2 matrix over `K`, row-major: `⟨a, b, c, d⟩` is `[[a, b], [c, d]]`.
This is the shape of the notebook's design matrix `P=np.vstack(([p_hat_asc, p_hat_dsc]))`
and of the normal-equations matrix `P.T @ P`. -/
structure Mat2 (K : Type) where
  a : K
  b : K
  c : K
  d : K
deriving DecidableEq, Repr

namespace Mat2

variable {K : Type} [Field K]

/-- Determinant of a 2×2 matrix. -/
def det (M : Mat2 K) : K := M.a * M.d - M.b * M.c

/-- Transpose, embedding `P.T`. -/
def transpose (M : Mat2 K) : Mat2 K := ⟨M.a, M.c, M.b, M.d⟩

/-- Matrix product, embedding `np.matmul` on 2×2 matrices. -/
def mul (M N : Mat2 K) : Mat2 K :=
  ⟨M.a * N.a + M.b * N.c, M.a * N.b + M.b * N.d,
   M.c * N.a + M.d * N.c, M.c * N.b + M.d * N.d⟩

/-- Matrix inverse by the closed 2×2 cofactor formula, embedding
`np.linalg.inv` on a 2×2 input (exact for `det ≠ 0`). -/
def inv (M : Mat2 K) : Mat2 K :=
  ⟨M.d / M.det, -M.b / M.det, -M.c / M.det, M.a / M.det⟩

/-- Matrix–vector product, embedding `np.matmul` of a 2×2 matrix with a
2-vector. -/
def mulVec (M : Mat2 K) (v : K × K) : K × K :=
  (M.a * v.1 + M.b * v.2, M.c * v.1 + M.d * v.2)

end Mat2

variable {K : Type} [Field K]

/-- The precomputed normal-equations inverse, embedding the notebook line
`PTPinv=np.linalg.inv(np.matmul(P.T,P))`. -/
def PTPinv (P : Mat2 K) : Mat2 K := ((P.transpose.mul P).inv)

/-- Least-squares decomposition of one observation pair into (east, vertical)
velocity, embedding the notebook line `u=np.matmul(PTPinv,np.matmul(P.T,r))`
(the spec's `decompose`). -/
def decompose (P : Mat2 K) (r : K × K) : K × K :=
  (PTPinv P).mulVec (P.transpose.mulVec r)

/-- Batch decomposition, embedding the notebook loop
`for i in range(len(r_asc_all)): r=...; u=np.matmul(PTPinv,np.matmul(P.T,r))`:
the factor `PTPinv` is computed once and reused for every target
(the spec's `decompose_many`). -/
def decompose_many (P : Mat2 K) (rs : List (K × K)) : List (K × K) :=
  let M := PTPinv P
  rs.map (fun r => M.mulVec (P.transpose.mulVec r))

/-- Modelled from the spec: the error taxonomy of §7 (DegenerateGeometryError,
DimensionMismatchError, InvalidInputError); the source notebook has no error
handling of its own. -/
inductive DecompError where
  | degenerateGeometry
  | dimensionMismatch
  | invalidInput
deriving DecidableEq, Repr

/-- Modelled from the spec: `build_design_matrix` takes the east and vertical
components of each supplied LOS vector as one row of the N×2 design matrix;
absent from the source, which inlines the two projections
`p_hat_asc = np.array([p_asc[0], p_asc[2]])`. -/
def build_design_matrix {K : Type} (los : List (K × K × K)) : List (K × K) :=
  los.map (fun p => (p.1, p.2.2))

/-- The normal-equations matrix `PᵀP` of an N×2 design matrix given as a list
of rows. -/
def normalMatrix {K : Type} [Field K] (rows : List (K × K)) : Mat2 K :=
  rows.foldr
    (fun p M => ⟨M.a + p.1 * p.1, M.b + p.1 * p.2, M.c + p.2 * p.1, M.d + p.2 * p.2⟩)
    ⟨0, 0, 0, 0⟩

/-- `Pᵀ r` for an N×2 design matrix and an N-observation vector. -/
def designTmulVec {K : Type} [Field K] (rows : List (K × K)) (obs : List K) : K × K :=
  (rows.zip obs).foldr (fun q v => (v.1 + q.1.1 * q.2, v.2 + q.1.2 * q.2)) (0, 0)

/-- Modelled from the spec: the validating `decompose` of §4.2/§7 is absent
from the source (the notebook inverts `PᵀP` with no checks).  Faithful to the
spec's words: empty inputs signal `InvalidInputError`; an observation length
different from the design-matrix row count signals `DimensionMismatchError`;
a singular normal-equations matrix, detected by a determinant check before
attempting inversion, signals `DegenerateGeometryError`; otherwise the
least-squares solution `(PᵀP)⁻¹ Pᵀ r` is returned. -/
def checkedDecompose {K : Type} [Field K] [DecidableEq K]
    (rows : List (K × K)) (obs : List K) : Except DecompError (K × K) :=
  if rows.isEmpty ∨ obs.isEmpty then .error .invalidInput
  else if obs.length ≠ rows.length then .error .dimensionMismatch
  else if (normalMatrix rows).det = 0 then .error .degenerateGeometry
  else .ok ((normalMatrix rows).inv.mulVec (designTmulVec rows obs))

/-- The five Berkeley landslide observation pairs `(r_asc, r_dsc)`, embedding
`r_asc_all=np.array([-7.2,-4.3,-4.6,-2.8,-12.1])` and
`r_dsc_all=np.array([12.2, 2.7, 5.3, 5.0, 12.0])` zipped by the loop
`r=np.vstack(([r_asc_all[i]],[r_dsc_all[i]]))`. -/
def berkeley_obs : List (ℚ × ℚ) :=
  [(-7.2, 12.2), (-4.3, 2.7), (-4.6, 5.3), (-2.8, 5.0), (-12.1, 12.0)]

/-- The design matrix as the saved source builds it
(`P=np.vstack(([p_hat_asc, p_hat_dsc]))`, ascending row first), with the
numeric entries the source's own recorded outputs
`p_asc = [-0.3835523, 0.07455501, -0.92050485]` and
`p_dsc = [0.5469732, 0.11626274, -0.82903757]` projected to (east, vertical). -/
def P_saved : Mat2 ℚ := ⟨-0.3835523, -0.92050485, 0.5469732, -0.82903757⟩

/-- The same two design-matrix rows in the opposite order (descending row
first).  The notebook's printed five landslide results were produced against
a state with this pairing: its solve cell has execution count 23 while the
saved `P`-construction cell has execution count 29, so the saved outputs
predate the saved `P`. -/
def P_printed : Mat2 ℚ := ⟨0.5469732, -0.82903757, -0.3835523, -0.92050485⟩

/-- The five (east, vertical) velocity results printed in the notebook's
saved output ("east velocity=-20.4 mm/yr, vertical velocity=-4.8 mm/yr", …). -/
def berkeley_printed : List (ℚ × ℚ) :=
  [(-20.4, -4.8), (-7.5, 0.2), (-10.5, -1.4), (-8.2, -2.0), (-25.7, -2.3)]

/-! ## Claim theorems -/

/-- C2: for every azimuth `phi` and incidence `theta` (radians),
`compute_los_vector phi theta` is exactly the vector
`[cos phi * sin theta, -sin phi * sin theta, -cos theta]`
(east, north, vertical components of the right-looking radar LOS). -/
theorem compute_los_vector_formula (phi theta : ℝ) :
    compute_los_vector phi theta =
      (Real.cos phi * Real.sin theta, -(Real.sin phi * Real.sin theta), -Real.cos theta) := by
  simp [compute_los_vector, neg_mul]

/-- C5: for every azimuth `phi` and incidence `theta`, the vector returned by
`compute_los_vector` has Euclidean norm 1 (exactly, over the reals). -/
theorem compute_los_vector_unit_norm (phi theta : ℝ) :
    Real.sqrt ((compute_los_vector phi theta).1 ^ 2 +
      (compute_los_vector phi theta).2.1 ^ 2 +
      (compute_los_vector phi theta).2.2 ^ 2) = 1 := by
  have h : (compute_los_vector phi theta).1 ^ 2 +
      (compute_los_vector phi theta).2.1 ^ 2 +
      (compute_los_vector phi theta).2.2 ^ 2 = 1 := by
    simp only [compute_los_vector]
    have h1 := Real.sin_sq_add_cos_sq phi
    have h2 := Real.sin_sq_add_cos_sq theta
    nlinarith [h1, h2]
  rw [h, Real.sqrt_one]

/-- C10: in the quadtree-reformatting component, for every incidence `theta`
and azimuth `phi` (kite's up-looking convention), the LOS vector
`[cos theta * -cos phi, cos theta * -sin phi, -sin theta]` has Euclidean
norm exactly 1 over the reals, so the unit-LOS columns written to the okinv
output are unit vectors. -/
theorem kite_los_vector_unit_norm (theta phi : ℝ) :
    Real.sqrt ((kite_los_vector theta phi).1 ^ 2 +
      (kite_los_vector theta phi).2.1 ^ 2 +
      (kite_los_vector theta phi).2.2 ^ 2) = 1 := by
  have h : (kite_los_vector theta phi).1 ^ 2 +
      (kite_los_vector theta phi).2.1 ^ 2 +
      (kite_los_vector theta phi).2.2 ^ 2 = 1 := by
    simp only [kite_los_vector]
    have h1 := Real.sin_sq_add_cos_sq phi
    have h2 := Real.sin_sq_add_cos_sq theta
    nlinarith [h1, h2]
  rw [h, Real.sqrt_one]

/-- C6 counterexample: at azimuth 0 and incidence `π` (a real input, since no
range restriction is enforced), the vertical component of
`compute_los_vector` is `-cos π = 1 > 0`, refuting "the vertical component is
non-positive for every real incidence input". -/
theorem compute_los_vector_vertical_pos_at_pi :
    0 < (compute_los_vector 0 π).2.2 := by
  simp [compute_los_vector, Real.cos_pi]

/-- C6 amended: for every azimuth and every incidence `theta` in the physical
range `0 ≤ theta ≤ π / 2`, the vertical component `-cos theta` of
`compute_los_vector` is non-positive. -/
theorem compute_los_vector_vertical_nonpos (phi theta : ℝ)
    (h0 : 0 ≤ theta) (h1 : theta ≤ π / 2) :
    (compute_los_vector phi theta).2.2 ≤ 0 := by
  have hc : 0 ≤ Real.cos theta := by
    apply Real.cos_nonneg_of_mem_Icc
    constructor
    · linarith [Real.pi_nonneg]
    · exact h1
  simp only [compute_los_vector]
  linarith

/-- Witness for the amended C6 at azimuth 0, incidence 0. -/
theorem compute_los_vector_vertical_nonpos_witness :
    (0 : ℝ) ≤ 0 ∧ (0 : ℝ) ≤ π / 2 ∧ (compute_los_vector 0 0).2.2 ≤ 0 :=
  ⟨le_refl 0, div_nonneg Real.pi_nonneg (by norm_num),
    compute_los_vector_vertical_nonpos 0 0 (le_refl 0)
      (by simpa using div_nonneg Real.pi_nonneg (by norm_num : (0:ℝ) ≤ 2))⟩

/-- C8: for every design matrix `P` and sequence of observation vectors,
`decompose_many P` equals mapping `decompose P` independently over the
observations, in order; the precomputed factor `(PᵀP)⁻¹` in
`decompose_many` is by construction the same `PTPinv P` for every target. -/
theorem decompose_many_eq_map (P : Mat2 K) (rs : List (K × K)) :
    decompose_many P rs = rs.map (decompose P) := rfl

/-- The rows of a `Mat2` as a pair family, for stating linear independence. -/
def Mat2.rows (P : Mat2 K) : Fin 2 → K × K := ![(P.a, P.b), (P.c, P.d)]

/-- Linearly independent rows of a 2×2 matrix force a nonzero determinant. -/
theorem det_ne_zero_of_rows_li (P : Mat2 K)
    (h : LinearIndependent K P.rows) : P.det ≠ 0 := by
  have key : ∀ s t : K, s * P.a + t * P.c = 0 → s * P.b + t * P.d = 0 →
      s = 0 ∧ t = 0 := by
    intro s t h1 h2
    refine (LinearIndependent.pair_iff.mp h) s t ?_
    simp only [Prod.smul_mk, smul_eq_mul, Prod.mk_add_mk, Prod.mk_eq_zero]
    exact ⟨h1, h2⟩
  intro hdet
  simp only [Mat2.det] at hdet
  have hbd := key P.d (-P.b) (by linear_combination hdet) (by ring)
  have hb : P.b = 0 := neg_eq_zero.mp hbd.2
  have hd : P.d = 0 := hbd.1
  have hac := key P.c (-P.a) (by ring) (by rw [hb, hd]; ring)
  have ha : P.a = 0 := neg_eq_zero.mp hac.2
  have hc : P.c = 0 := hac.1
  have hone := key 1 0 (by rw [ha, hc]; ring) (by rw [hb, hd]; ring)
  exact one_ne_zero hone.1

/-- C1: for every 2×2 design matrix `P` whose rows are linearly independent
and every true velocity pair `m`, `decompose P (P * m)` returns `m` exactly,
and the residual `P * (decompose P (P * m)) - P * m` is exactly zero. -/
theorem decompose_roundtrip (P : Mat2 K) (m : K × K)
    (h : LinearIndependent K P.rows) :
    decompose P (P.mulVec m) = m ∧
      P.mulVec (decompose P (P.mulVec m)) - P.mulVec m = 0 := by
  have hd : P.det ≠ 0 := det_ne_zero_of_rows_li P h
  have hne : (P.a * P.a + P.c * P.c) * (P.b * P.b + P.d * P.d) -
      (P.a * P.b + P.c * P.d) * (P.b * P.a + P.d * P.c) ≠ 0 := by
    have he : (P.a * P.a + P.c * P.c) * (P.b * P.b + P.d * P.d) -
        (P.a * P.b + P.c * P.d) * (P.b * P.a + P.d * P.c) = P.det ^ 2 := by
      simp only [Mat2.det]; ring
    rw [he]
    exact pow_ne_zero 2 hd
  have h1 : decompose P (P.mulVec m) = m := by
    simp only [decompose, PTPinv, Mat2.inv, Mat2.mul, Mat2.transpose, Mat2.mulVec,
      Mat2.det, Prod.ext_iff]
    constructor
    · field_simp
      ring
    · field_simp
      ring
  exact ⟨h1, by rw [h1, sub_self]⟩

/-- Witness for C1: the identity design matrix over `ℚ` has linearly
independent rows and the round trip recovers `m = (2, 3)` exactly. -/
theorem decompose_roundtrip_witness :
    LinearIndependent ℚ (Mat2.rows (⟨1, 0, 0, 1⟩ : Mat2 ℚ)) ∧
      (decompose (⟨1, 0, 0, 1⟩ : Mat2 ℚ)
          ((⟨1, 0, 0, 1⟩ : Mat2 ℚ).mulVec ((2 : ℚ), (3 : ℚ))) = ((2 : ℚ), (3 : ℚ)) ∧
        (⟨1, 0, 0, 1⟩ : Mat2 ℚ).mulVec
            (decompose (⟨1, 0, 0, 1⟩ : Mat2 ℚ)
              ((⟨1, 0, 0, 1⟩ : Mat2 ℚ).mulVec ((2 : ℚ), (3 : ℚ)))) -
          (⟨1, 0, 0, 1⟩ : Mat2 ℚ).mulVec ((2 : ℚ), (3 : ℚ)) = 0) := by
  have hli : LinearIndependent ℚ (Mat2.rows (⟨1, 0, 0, 1⟩ : Mat2 ℚ)) :=
    LinearIndependent.pair_iff.mpr
      (fun s t hst => by simpa [Prod.ext_iff] using hst)
  exact ⟨hli, decompose_roundtrip _ _ hli⟩

/-- C9: for every fixed design matrix `P` with invertible normal-equations
matrix, `decompose P` is linear in the observation vector. -/
theorem decompose_linear (P : Mat2 K)
    (_hP : (P.transpose.mul P).det ≠ 0) (a b : K) (r1 r2 : K × K) :
    decompose P (a • r1 + b • r2) =
      a • decompose P r1 + b • decompose P r2 := by
  simp only [decompose, PTPinv, Mat2.inv, Mat2.mul, Mat2.transpose, Mat2.mulVec,
    Mat2.det, Prod.ext_iff, Prod.fst_add, Prod.snd_add, Prod.smul_fst, Prod.smul_snd,
    smul_eq_mul]
  constructor
  · ring
  · ring

/-- Witness for C9 at a concrete invertible design matrix over `ℚ`. -/
theorem decompose_linear_witness :
    ((⟨1, 0, 0, 1⟩ : Mat2 ℚ).transpose.mul ⟨1, 0, 0, 1⟩).det ≠ 0 ∧
      decompose (⟨1, 0, 0, 1⟩ : Mat2 ℚ)
          ((2 : ℚ) • ((1 : ℚ), (2 : ℚ)) + (3 : ℚ) • ((3 : ℚ), (4 : ℚ))) =
        (2 : ℚ) • decompose (⟨1, 0, 0, 1⟩ : Mat2 ℚ) ((1 : ℚ), (2 : ℚ)) +
          (3 : ℚ) • decompose (⟨1, 0, 0, 1⟩ : Mat2 ℚ) ((3 : ℚ), (4 : ℚ)) :=
  ⟨by simp [Mat2.transpose, Mat2.mul, Mat2.det],
    decompose_linear _ (by simp [Mat2.transpose, Mat2.mul, Mat2.det]) 2 3
      ((1 : ℚ), (2 : ℚ)) ((3 : ℚ), (4 : ℚ))⟩

/-- C3: when the two supplied LOS rows are parallel or identical (one is a
scalar multiple of the other, so the normal-equations matrix `PᵀP` is
singular), `checkedDecompose` returns `DegenerateGeometryError` — detected by
the determinant check before inversion — rather than any numeric result. -/
theorem checkedDecompose_degenerate [DecidableEq K] (p q : K × K) (x y : K) (c : K)
    (hpar : q = (c * p.1, c * p.2) ∨ p = (c * q.1, c * q.2)) :
    checkedDecompose [p, q] [x, y] = .error .degenerateGeometry := by
  have hdet : (normalMatrix ([p, q] : List (K × K))).det = 0 := by
    rcases hpar with h | h <;> subst h <;>
      simp only [normalMatrix, List.foldr, Mat2.det] <;> ring
  simp [checkedDecompose, hdet]

/-- Witness for C3: two proportional rows over `ℚ` yield the degenerate
geometry error. -/
theorem checkedDecompose_degenerate_witness :
    (((2 : ℚ), (4 : ℚ)) = ((2 : ℚ) * 1, (2 : ℚ) * 2) ∨
        ((1 : ℚ), (2 : ℚ)) = ((2 : ℚ) * 2, (2 : ℚ) * 4)) ∧
      checkedDecompose [((1 : ℚ), (2 : ℚ)), ((2 : ℚ), (4 : ℚ))] [(5 : ℚ), (6 : ℚ)] =
        .error .degenerateGeometry := by
  have hpar : (((2 : ℚ), (4 : ℚ)) = ((2 : ℚ) * 1, (2 : ℚ) * 2) ∨
      ((1 : ℚ), (2 : ℚ)) = ((2 : ℚ) * 2, (2 : ℚ) * 4)) := Or.inl (by norm_num)
  exact ⟨hpar, checkedDecompose_degenerate ((1 : ℚ), (2 : ℚ)) ((2 : ℚ), (4 : ℚ)) 5 6 2 hpar⟩

/-- C7 counterexample: with an empty design matrix and a two-element
observation vector, the lengths differ (0 ≠ 2), yet the validating
`checkedDecompose` returns `InvalidInputError`, not `DimensionMismatchError`:
the two "whenever" clauses of the claim overlap and cannot both hold. -/
theorem checkedDecompose_empty_not_mismatch :
    ([(1 : ℚ), 2].length ≠ ([] : List (ℚ × ℚ)).length) ∧
      checkedDecompose ([] : List (ℚ × ℚ)) [(1 : ℚ), 2] = .error .invalidInput ∧
      checkedDecompose ([] : List (ℚ × ℚ)) [(1 : ℚ), 2] ≠ .error .dimensionMismatch := by
  refine ⟨by simp, by simp [checkedDecompose], ?_⟩
  simp [checkedDecompose]

/-- C7 amended: `checkedDecompose` validates before computing — it returns
`InvalidInputError` whenever either input is empty, and returns
`DimensionMismatchError` whenever both inputs are non-empty and the
observation length differs from the design-matrix row count; in either case
no numeric result is produced. -/
theorem checkedDecompose_validates [DecidableEq K]
    (rows : List (K × K)) (obs : List K) :
    (rows = [] ∨ obs = [] → checkedDecompose rows obs = .error .invalidInput) ∧
      (rows ≠ [] → obs ≠ [] → obs.length ≠ rows.length →
        checkedDecompose rows obs = .error .dimensionMismatch) := by
  constructor
  · intro h
    rcases h with h | h <;> simp [checkedDecompose, h]
  · intro h1 h2 h3
    simp [checkedDecompose, h1, h2, h3]

/-- Witness for the amended C7 on concrete empty and mismatched inputs. -/
theorem checkedDecompose_validates_witness :
    checkedDecompose ([] : List (ℚ × ℚ)) [(1 : ℚ)] = .error .invalidInput ∧
      checkedDecompose [((1 : ℚ), (0 : ℚ))] [(1 : ℚ), 2] = .error .dimensionMismatch :=
  ⟨(checkedDecompose_validates _ _).1 (Or.inl rfl),
    (checkedDecompose_validates _ _).2 (by simp) (by simp) (by simp)⟩

/-! ### Interval bounds for the trigonometric values of the Berkeley scenario

Quartic Taylor bounds on `sin` and `cos` over rational sub-intervals of
`[0, 1]`, combined through double-angle identities, pin each LOS component
of the scenario to within a few times `10⁻⁴`. -/

/-- Quartic Taylor enclosure of `cos` on a rational interval inside `[0, 1]`. -/
theorem cos_taylor_iv {x l u : ℝ} (h0 : 0 ≤ l) (hl : l ≤ x) (hu : x ≤ u) (h1 : u ≤ 1) :
    1 - u ^ 2 / 2 - u ^ 4 * (5 / 96) ≤ Real.cos x ∧
      Real.cos x ≤ 1 - l ^ 2 / 2 + u ^ 4 * (5 / 96) := by
  have hx0 : 0 ≤ x := le_trans h0 hl
  have hxa : |x| ≤ 1 := by rw [abs_of_nonneg hx0]; linarith
  have hb := Real.cos_bound hxa
  rw [abs_le, abs_of_nonneg hx0] at hb
  have p2 : x ^ 2 ≤ u ^ 2 := pow_le_pow_left₀ hx0 hu 2
  have p2l : l ^ 2 ≤ x ^ 2 := pow_le_pow_left₀ h0 hl 2
  have p4 : x ^ 4 ≤ u ^ 4 := pow_le_pow_left₀ hx0 hu 4
  constructor <;> nlinarith [hb.1, hb.2]

/-- Quartic Taylor enclosure of `sin` on a rational interval inside `[0, 1]`. -/
theorem sin_taylor_iv {x l u : ℝ} (h0 : 0 ≤ l) (hl : l ≤ x) (hu : x ≤ u) (h1 : u ≤ 1) :
    l - u ^ 3 / 6 - u ^ 4 * (5 / 96) ≤ Real.sin x ∧
      Real.sin x ≤ u - l ^ 3 / 6 + u ^ 4 * (5 / 96) := by
  have hx0 : 0 ≤ x := le_trans h0 hl
  have hxa : |x| ≤ 1 := by rw [abs_of_nonneg hx0]; linarith
  have hb := Real.sin_bound hxa
  rw [abs_le, abs_of_nonneg hx0] at hb
  have p3 : x ^ 3 ≤ u ^ 3 := pow_le_pow_left₀ hx0 hu 3
  have p3l : l ^ 3 ≤ x ^ 3 := pow_le_pow_left₀ h0 hl 3
  have p4 : x ^ 4 ≤ u ^ 4 := pow_le_pow_left₀ hx0 hu 4
  constructor <;> nlinarith [hb.1, hb.2]

/-- Product of two nonnegative interval enclosures. -/
theorem mul_iv_bounds {x y lx ux ly uy : ℝ} (hx : lx ≤ x ∧ x ≤ ux)
    (hy : ly ≤ y ∧ y ≤ uy) (h0x : 0 ≤ lx) (h0y : 0 ≤ ly) :
    lx * ly ≤ x * y ∧ x * y ≤ ux * uy :=
  ⟨mul_le_mul hx.1 hy.1 h0y (le_trans h0x hx.1),
    mul_le_mul hx.2 hy.2 (le_trans h0y hy.1) (le_trans (le_trans h0x hx.1) hx.2)⟩

/-- Enclosure of `cos 11°`. -/
theorem cos11_iv : (0.9814998 : ℝ) ≤ Real.cos (11 * π / 180) ∧
    Real.cos (11 * π / 180) ≤ 0.9816415 := by
  have hx : (0.1919861 : ℝ) ≤ 11 * π / 180 ∧ 11 * π / 180 ≤ 0.1919863 := by
    constructor <;> nlinarith [Real.pi_gt_d6, Real.pi_lt_d6]
  have h := cos_taylor_iv (by norm_num) hx.1 hx.2 (by norm_num)
  constructor <;> nlinarith [h.1, h.2]

/-- Enclosure of `sin 11°`. -/
theorem sin11_iv : (0.1907359 : ℝ) ≤ Real.sin (11 * π / 180) ∧
    Real.sin (11 * π / 180) ≤ 0.1908777 := by
  have hx : (0.1919861 : ℝ) ≤ 11 * π / 180 ∧ 11 * π / 180 ≤ 0.1919863 := by
    constructor <;> nlinarith [Real.pi_gt_d6, Real.pi_lt_d6]
  have h := sin_taylor_iv (by norm_num) hx.1 hx.2 (by norm_num)
  constructor <;> nlinarith [h.1, h.2]

/-- Enclosure of `cos 12°`. -/
theorem cos12_iv : (0.9779673 : ℝ) ≤ Real.cos (12 * π / 180) ∧
    Real.cos (12 * π / 180) ≤ 0.9781678 := by
  have hx : (0.2094394 : ℝ) ≤ 12 * π / 180 ∧ 12 * π / 180 ≤ 0.2094396 := by
    constructor <;> nlinarith [Real.pi_gt_d6, Real.pi_lt_d6]
  have h := cos_taylor_iv (by norm_num) hx.1 hx.2 (by norm_num)
  constructor <;> nlinarith [h.1, h.2]

/-- Enclosure of `sin 12°`. -/
theorem sin12_iv : (0.2078080 : ℝ) ≤ Real.sin (12 * π / 180) ∧
    Real.sin (12 * π / 180) ≤ 0.2080087 := by
  have hx : (0.2094394 : ℝ) ≤ 12 * π / 180 ∧ 12 * π / 180 ≤ 0.2094396 := by
    constructor <;> nlinarith [Real.pi_gt_d6, Real.pi_lt_d6]
  have h := sin_taylor_iv (by norm_num) hx.1 hx.2 (by norm_num)
  constructor <;> nlinarith [h.1, h.2]

/-- Enclosure of `cos 11.5°`. -/
theorem cos115_iv : (0.9797726 : ℝ) ≤ Real.cos (23 * π / 360) ∧
    Real.cos (23 * π / 360) ≤ 0.9799418 := by
  have hx : (0.2007128 : ℝ) ≤ 23 * π / 360 ∧ 23 * π / 360 ≤ 0.2007129 := by
    constructor <;> nlinarith [Real.pi_gt_d6, Real.pi_lt_d6]
  have h := cos_taylor_iv (by norm_num) hx.1 hx.2 (by norm_num)
  constructor <;> nlinarith [h.1, h.2]

/-- Enclosure of `sin 11.5°`. -/
theorem sin115_iv : (0.1992806 : ℝ) ≤ Real.sin (23 * π / 360) ∧
    Real.sin (23 * π / 360) ≤ 0.1994498 := by
  have hx : (0.2007128 : ℝ) ≤ 23 * π / 360 ∧ 23 * π / 360 ≤ 0.2007129 := by
    constructor <;> nlinarith [Real.pi_gt_d6, Real.pi_lt_d6]
  have h := sin_taylor_iv (by norm_num) hx.1 hx.2 (by norm_num)
  constructor <;> nlinarith [h.1, h.2]

/-- Enclosure of `cos 8.5°`. -/
theorem cos85_iv : (0.9889704 : ℝ) ≤ Real.cos (17 * π / 360) ∧
    Real.cos (17 * π / 360) ≤ 0.9890210 := by
  have hx : (0.1483529 : ℝ) ≤ 17 * π / 360 ∧ 17 * π / 360 ≤ 0.1483531 := by
    constructor <;> nlinarith [Real.pi_gt_d6, Real.pi_lt_d6]
  have h := cos_taylor_iv (by norm_num) hx.1 hx.2 (by norm_num)
  constructor <;> nlinarith [h.1, h.2]

/-- Enclosure of `sin 8.5°`. -/
theorem sin85_iv : (0.1477834 : ℝ) ≤ Real.sin (17 * π / 360) ∧
    Real.sin (17 * π / 360) ≤ 0.1478342 := by
  have hx : (0.1483529 : ℝ) ≤ 17 * π / 360 ∧ 17 * π / 360 ≤ 0.1483531 := by
    constructor <;> nlinarith [Real.pi_gt_d6, Real.pi_lt_d6]
  have h := sin_taylor_iv (by norm_num) hx.1 hx.2 (by norm_num)
  constructor <;> nlinarith [h.1, h.2]

/-- Enclosure of `sin 23°` via the double angle of 11.5°. -/
theorem sin23_iv : (0.3904993 : ℝ) ≤ Real.sin (23 * π / 180) ∧
    Real.sin (23 * π / 180) ≤ 0.3908984 := by
  have hs := sin115_iv
  have hc := cos115_iv
  have h2 : Real.sin (23 * π / 180) =
      2 * (Real.sin (23 * π / 360) * Real.cos (23 * π / 360)) := by
    rw [show (23 : ℝ) * π / 180 = 2 * (23 * π / 360) by ring, Real.sin_two_mul]
    ring
  rw [h2]
  have h := mul_iv_bounds ⟨hs.1, hs.2⟩ ⟨hc.1, hc.2⟩ (by norm_num) (by norm_num)
  constructor <;> nlinarith [h.1, h.2]

/-- Enclosure of `cos 23°` via the double angle of 11.5°. -/
theorem cos23_iv : (0.9199086 : ℝ) ≤ Real.cos (23 * π / 180) ∧
    Real.cos (23 * π / 180) ≤ 0.9205719 := by
  have hc := cos115_iv
  have h2 : Real.cos (23 * π / 180) = 2 * Real.cos (23 * π / 360) ^ 2 - 1 := by
    rw [show (23 : ℝ) * π / 180 = 2 * (23 * π / 360) by ring, Real.cos_two_mul]
  rw [h2]
  constructor <;> nlinarith [hc.1, hc.2]

/-- Enclosure of `sin 17°` via the double angle of 8.5°. -/
theorem sin17_iv : (0.2923068 : ℝ) ≤ Real.sin (17 * π / 180) ∧
    Real.sin (17 * π / 180) ≤ 0.2924223 := by
  have hs := sin85_iv
  have hc := cos85_iv
  have h2 : Real.sin (17 * π / 180) =
      2 * (Real.sin (17 * π / 360) * Real.cos (17 * π / 360)) := by
    rw [show (17 : ℝ) * π / 180 = 2 * (17 * π / 360) by ring, Real.sin_two_mul]
    ring
  rw [h2]
  have h := mul_iv_bounds ⟨hs.1, hs.2⟩ ⟨hc.1, hc.2⟩ (by norm_num) (by norm_num)
  constructor <;> nlinarith [h.1, h.2]

/-- Enclosure of `cos 17°` via the double angle of 8.5°. -/
theorem cos17_iv : (0.9561249 : ℝ) ≤ Real.cos (17 * π / 180) ∧
    Real.cos (17 * π / 180) ≤ 0.9563251 := by
  have hc := cos85_iv
  have h2 : Real.cos (17 * π / 180) = 2 * Real.cos (17 * π / 360) ^ 2 - 1 := by
    rw [show (17 : ℝ) * π / 180 = 2 * (17 * π / 360) by ring, Real.cos_two_mul]
  rw [h2]
  constructor <;> nlinarith [hc.1, hc.2]

/-- Enclosure of `sin 34°` via the double angle of 17°. -/
theorem sin34_iv : (0.5589636 : ℝ) ≤ Real.sin (34 * π / 180) ∧
    Real.sin (34 * π / 180) ≤ 0.5593016 := by
  have hs := sin17_iv
  have hc := cos17_iv
  have h2 : Real.sin (34 * π / 180) =
      2 * (Real.sin (17 * π / 180) * Real.cos (17 * π / 180)) := by
    rw [show (34 : ℝ) * π / 180 = 2 * (17 * π / 180) by ring, Real.sin_two_mul]
    ring
  rw [h2]
  have h := mul_iv_bounds ⟨hs.1, hs.2⟩ ⟨hc.1, hc.2⟩ (by norm_num) (by norm_num)
  constructor <;> nlinarith [h.1, h.2]

/-- Enclosure of `cos 34°` via the double angle of 17°. -/
theorem cos34_iv : (0.8283496 : ℝ) ≤ Real.cos (34 * π / 180) ∧
    Real.cos (34 * π / 180) ≤ 0.8291154 := by
  have hc := cos17_iv
  have h2 : Real.cos (34 * π / 180) = 2 * Real.cos (17 * π / 180) ^ 2 - 1 := by
    rw [show (34 : ℝ) * π / 180 = 2 * (17 * π / 180) by ring, Real.cos_two_mul]
  rw [h2]
  constructor <;> nlinarith [hc.1, hc.2]

/-- Reduction of the 191° azimuth: `cos 191° = -cos 11°`. -/
theorem cos_radians191 : Real.cos (radians 191) = -Real.cos (11 * π / 180) := by
  simp only [radians]
  rw [show (191 : ℝ) * π / 180 = π + 11 * π / 180 by ring, Real.cos_add,
    Real.cos_pi, Real.sin_pi]
  ring

/-- Reduction of the 191° azimuth: `sin 191° = -sin 11°`. -/
theorem sin_radians191 : Real.sin (radians 191) = -Real.sin (11 * π / 180) := by
  simp only [radians]
  rw [show (191 : ℝ) * π / 180 = π + 11 * π / 180 by ring, Real.sin_add,
    Real.cos_pi, Real.sin_pi]
  ring

/-- Reduction of the 348° azimuth: `cos 348° = cos 12°`. -/
theorem cos_radians348 : Real.cos (radians 348) = Real.cos (12 * π / 180) := by
  simp only [radians]
  rw [show (348 : ℝ) * π / 180 = 2 * π - 12 * π / 180 by ring, Real.cos_two_pi_sub]

/-- Reduction of the 348° azimuth: `sin 348° = -sin 12°`. -/
theorem sin_radians348 : Real.sin (radians 348) = -Real.sin (12 * π / 180) := by
  simp only [radians]
  rw [show (348 : ℝ) * π / 180 = 2 * π - 12 * π / 180 by ring, Real.sin_two_pi_sub]

/-- C4 (code bug): the LOS vectors the source computes for
(azimuth 191°, incidence 23°) and (azimuth 348°, incidence 34°) are indeed
approximately `[-0.3836, 0.0746, -0.9205]` and `[0.5470, 0.1163, -0.8290]`
(first six conjuncts, each within `10⁻³`); but applying the decomposition to
the design matrix exactly as the saved cells build it (`P_saved`, ascending
row first) and the first observation pair `(-7.2, 12.2)` yields an east
velocity of at least `20.8` — nowhere near the documented `-20.4` — while the
notebook's five printed results are reproduced, each within `±0.1`, only by
`P_printed`, the same rows in the opposite order (last two conjuncts). -/
theorem berkeley_scenario_divergence :
    (|(compute_los_vector (radians 191) (radians 23)).1 - (-0.3836)| ≤ 0.001 ∧
      |(compute_los_vector (radians 191) (radians 23)).2.1 - 0.0746| ≤ 0.001 ∧
      |(compute_los_vector (radians 191) (radians 23)).2.2 - (-0.9205)| ≤ 0.001) ∧
    (|(compute_los_vector (radians 348) (radians 34)).1 - 0.5470| ≤ 0.001 ∧
      |(compute_los_vector (radians 348) (radians 34)).2.1 - 0.1163| ≤ 0.001 ∧
      |(compute_los_vector (radians 348) (radians 34)).2.2 - (-0.8290)| ≤ 0.001) ∧
    (20.8 : ℚ) ≤ (decompose P_saved (-7.2, 12.2)).1 ∧
    List.Forall₂ (fun u v : ℚ × ℚ => |u.1 - v.1| ≤ (0.1 : ℚ) ∧ |u.2 - v.2| ≤ (0.1 : ℚ))
      (decompose_many P_printed berkeley_obs) berkeley_printed := by
  refine ⟨⟨?_, ?_, ?_⟩, ⟨?_, ?_, ?_⟩, ?_, ?_⟩
  · simp only [compute_los_vector]
    rw [cos_radians191]
    simp only [radians]
    have h := mul_iv_bounds cos11_iv sin23_iv (by norm_num) (by norm_num)
    rw [abs_le]
    constructor <;> nlinarith [h.1, h.2]
  · simp only [compute_los_vector]
    rw [sin_radians191]
    simp only [radians]
    have h := mul_iv_bounds sin11_iv sin23_iv (by norm_num) (by norm_num)
    rw [abs_le]
    constructor <;> nlinarith [h.1, h.2]
  · simp only [compute_los_vector]
    simp only [radians]
    have h := cos23_iv
    rw [abs_le]
    constructor <;> nlinarith [h.1, h.2]
  · simp only [compute_los_vector]
    rw [cos_radians348]
    simp only [radians]
    have h := mul_iv_bounds cos12_iv sin34_iv (by norm_num) (by norm_num)
    rw [abs_le]
    constructor <;> nlinarith [h.1, h.2]
  · simp only [compute_los_vector]
    rw [sin_radians348]
    simp only [radians]
    have h := mul_iv_bounds sin12_iv sin34_iv (by norm_num) (by norm_num)
    rw [abs_le]
    constructor <;> nlinarith [h.1, h.2]
  · simp only [compute_los_vector]
    simp only [radians]
    have h := cos34_iv
    rw [abs_le]
    constructor <;> nlinarith [h.1, h.2]
  · norm_num [decompose, PTPinv, Mat2.inv, Mat2.mul, Mat2.transpose, Mat2.mulVec,
      Mat2.det, P_saved]
  · norm_num [decompose_many, PTPinv, Mat2.inv, Mat2.mul, Mat2.transpose, Mat2.mulVec,
      Mat2.det, P_printed, berkeley_obs, berkeley_printed, List.forall₂_cons, abs_le]

end GeoSInC
